import Mathlib

/-
Verification of the clawdbot-feishu channel adapter (src/src/send.ts and
src/src/api.ts) against its natural-language specification.  The TypeScript
functions are shallowly embedded as pure Lean functions; network effects are
modelled by passing the observable outcome of each network call (an oracle)
as an explicit argument, and the side effects performed by a function are
returned as explicit lists of attempted operations and logged error strings.
JSON serialization of card payloads is injective on the shapes used here and
is therefore factored out: cards are modelled as structures recording the
exact arguments of the buildMarkdownCard calls, together with a function
renderCardMarkdown computing the markdown string the source would serialize.
-/

namespace Feishu

/-- JavaScript String.prototype.trim, modelled by structural recursion on
the character list so that it evaluates inside the kernel (the library trim
is defined by well-founded recursion on byte positions and does not
reduce). -/
def trimString (s : String) : String :=
  ⟨((s.data.dropWhile Char.isWhitespace).reverse.dropWhile Char.isWhitespace).reverse⟩

/-- JavaScript truthiness of an optional string field: undefined and the
empty string are falsy, every other string is truthy. -/
def optTruthy : Option String → Bool
  | some s => s != ""
  | none => false

/-- The streaming cursor glyph appended while a reply is still generating
(constant STREAMING_INDICATOR in send.ts). -/
def STREAMING_INDICATOR : String := " ▌"

/-- Arguments of one buildMarkdownCard call in send.ts: the markdown body,
the optional mention user id, and the streaming flag. -/
structure CardSpec where
  text : String
  mention : Option String
  streaming : Bool
  deriving DecidableEq, Repr

/-- The markdown content string assembled by buildMarkdownCard in send.ts:
an at-mention when the mention id trims to a nonempty string, then the body,
then the cursor glyph when streaming. -/
def renderCardMarkdown (c : CardSpec) : String :=
  let md :=
    match c.mention with
    | some m => if trimString m != "" then "<at id=" ++ m ++ "></at> " ++ c.text else c.text
    | none => c.text
  if c.streaming then md ++ STREAMING_INDICATOR else md

/-- The interactive card object built by buildMarkdownCard before JSON
serialization: the two fixed config flags and the markdown element. -/
structure MarkdownCard where
  wide_screen_mode : Bool
  enable_forward : Bool
  markdownContent : String
  deriving DecidableEq, Repr

/-- buildMarkdownCard from send.ts, returning the card object. -/
def buildMarkdownCard (content : String) (mentionUserId : Option String)
    (isStreaming : Bool) : MarkdownCard :=
  { wide_screen_mode := true, enable_forward := true,
    markdownContent := renderCardMarkdown ⟨content, mentionUserId, isStreaming⟩ }

/-- Channel-tag stripping applied to an already lowercased allow-list entry,
mirroring the anchored case-insensitive replace in isSenderAllowed
(send.ts line 715); the input is lowercased first, so only the lowercase
tags can match. -/
def stripChannelTag (s : String) : String :=
  if s.startsWith "feishu:" then s.drop 7
  else if s.startsWith "lark:" then s.drop 5
  else if s.startsWith "fs:" then s.drop 3
  else s

/-- isSenderAllowed from send.ts lines 711-718. -/
def isSenderAllowed (senderId : String) (allowFrom : List String) : Bool :=
  if allowFrom.contains "*" then true
  else
    let normalizedSenderId := senderId.toLower
    allowFrom.any fun entry => stripChannelTag entry.toLower == normalizedSenderId

/-- The specification reading of the allowlist rule: the wildcard entry
admits every sender; otherwise the sender id must equal some allow-list
entry after case normalization of both sides and channel-tag stripping of
the entry. -/
def senderAllowedSpec (senderId : String) (allowFrom : List String) : Prop :=
  allowFrom.contains "*" = true ∨
    ∃ entry ∈ allowFrom, stripChannelTag entry.toLower = senderId.toLower

/-- C3: isSenderAllowed returns true if the allow list contains the wildcard
(for any sender id); otherwise it returns true exactly when the sender id
matches some allow-list entry after case normalization and stripping of an
optional channel tag (feishu:, lark:, fs:) from the entry, and false for
every non-matching sender id. -/
theorem isSenderAllowed_spec (senderId : String) (allowFrom : List String) :
    isSenderAllowed senderId allowFrom = true ↔ senderAllowedSpec senderId allowFrom := by
  unfold isSenderAllowed senderAllowedSpec
  by_cases h : allowFrom.contains "*"
  · simp [h]
  · simp [h, List.any_eq_true]

/-- One entry of the module-level token cache in api.ts: the token string
and its absolute expiry instant in milliseconds. -/
structure CachedToken where
  token : String
  expiresAt : Int
  deriving DecidableEq, Repr

/-- The body of the credential-exchange response as read by
getTenantAccessToken in api.ts: the platform status code and message, the
token at top level, and the reported expiry in seconds. -/
structure FeishuTokenResponse where
  code : Option Int
  msg : Option String
  tenant_access_token : Option String
  expire : Option Int
  deriving DecidableEq, Repr

/-- Observable outcome of one getTenantAccessToken call: either a returned
token together with the updated cache and a flag recording whether a
credential exchange was performed, or a thrown FeishuApiError with its
message, platform code and platform message. -/
inductive TokenOutcome where
  | success (token : String) (cache : List (String × CachedToken)) (exchanged : Bool)
  | authError (message : String) (code : Option Int) (msg : Option String)
  deriving DecidableEq, Repr

/-- Map.get on the token cache, keyed by app id. -/
def lookupToken (cache : List (String × CachedToken)) (appId : String) :
    Option CachedToken :=
  (cache.find? fun p => p.1 == appId).map Prod.snd

/-- Map.set on the token cache: replace the entry for the app id when
present, append otherwise. -/
def setToken (cache : List (String × CachedToken)) (appId : String)
    (v : CachedToken) : List (String × CachedToken) :=
  if cache.any (fun p => p.1 == appId) then
    cache.map fun p => if p.1 == appId then (appId, v) else p
  else cache ++ [(appId, v)]

/-- The credential-exchange path of getTenantAccessToken (api.ts lines
79-99): read the token from the top level of the response; a missing or
empty (falsy) token throws FeishuApiError with the response message, code
and message; otherwise the token is cached with expiry now plus the
reported expire seconds (default 7200) in milliseconds, and returned. -/
def exchangeTenantToken (cache : List (String × CachedToken)) (appId : String)
    (now : Int) (resp : FeishuTokenResponse) : TokenOutcome :=
  let expire := resp.expire.getD 7200
  match resp.tenant_access_token with
  | some token =>
    if token != "" then
      TokenOutcome.success token (setToken cache appId ⟨token, now + expire * 1000⟩) true
    else
      TokenOutcome.authError (resp.msg.getD "Failed to get tenant access token")
        resp.code resp.msg
  | none =>
    TokenOutcome.authError (resp.msg.getD "Failed to get tenant access token")
      resp.code resp.msg

/-- getTenantAccessToken from api.ts lines 50-103: return the cached token
when its expiry lies more than the 5-minute buffer in the future, otherwise
perform one credential exchange. -/
def getTenantAccessToken (cache : List (String × CachedToken)) (appId : String)
    (now : Int) (resp : FeishuTokenResponse) : TokenOutcome :=
  match lookupToken cache appId with
  | some cached =>
    if cached.expiresAt > now + 5 * 60 * 1000 then
      TokenOutcome.success cached.token cache false
    else exchangeTenantToken cache appId now resp
  | none => exchangeTenantToken cache appId now resp

/-- C6: a call whose cached token has remaining lifetime exceeding the
5-minute buffer returns the cached token with no credential exchange and an
unchanged cache; a call with no cached token, or a cached token within the
buffer, performs exactly one credential exchange and (when the exchange
yields a token) stores it keyed by app id with expiry now plus the reported
expire seconds (7200 when the response omits expire), in milliseconds. -/
theorem getTenantAccessToken_cache_spec
    (cache : List (String × CachedToken)) (appId : String) (now : Int)
    (resp : FeishuTokenResponse) :
    (∀ c, lookupToken cache appId = some c → c.expiresAt > now + 5 * 60 * 1000 →
      getTenantAccessToken cache appId now resp =
        TokenOutcome.success c.token cache false) ∧
    (∀ t, (lookupToken cache appId = none ∨
        ∃ c, lookupToken cache appId = some c ∧ ¬ c.expiresAt > now + 5 * 60 * 1000) →
      resp.tenant_access_token = some t → t ≠ "" →
      getTenantAccessToken cache appId now resp =
        TokenOutcome.success t
          (setToken cache appId ⟨t, now + (resp.expire.getD 7200) * 1000⟩) true) := by
  constructor
  · intro c hc hfresh
    unfold getTenantAccessToken
    rw [hc]
    exact if_pos hfresh
  · intro t hstale htok hne
    unfold getTenantAccessToken
    rcases hstale with hnone | ⟨c, hc, hstale⟩
    · rw [hnone]
      unfold exchangeTenantToken
      rw [htok]
      simp [hne]
    · rw [hc]
      simp only [if_neg hstale]
      unfold exchangeTenantToken
      rw [htok]
      simp [hne]

/-- Witness for getTenantAccessToken_cache_spec: a fresh cached token is
returned unchanged without an exchange, and a cold cache performs one
exchange and stores the token with the default 7200-second expiry. -/
theorem getTenantAccessToken_cache_spec_witness :
    getTenantAccessToken [("app", ⟨"tokA", 1000000⟩)] "app" 0
        ⟨none, none, some "tokB", none⟩ =
      TokenOutcome.success "tokA" [("app", ⟨"tokA", 1000000⟩)] false ∧
    getTenantAccessToken [] "app" 0 ⟨none, none, some "tokB", none⟩ =
      TokenOutcome.success "tokB" [("app", ⟨"tokB", 7200000⟩)] true := by
  constructor
  · exact (getTenantAccessToken_cache_spec [("app", ⟨"tokA", 1000000⟩)] "app" 0
      ⟨none, none, some "tokB", none⟩).1 ⟨"tokA", 1000000⟩ (by decide) (by decide)
  · exact (getTenantAccessToken_cache_spec [] "app" 0
      ⟨none, none, some "tokB", none⟩).2 "tokB" (Or.inl (by decide)) rfl (by decide)

/-- True exactly when a token outcome is a thrown FeishuApiError. -/
def isAuthErrorOutcome : TokenOutcome → Bool
  | TokenOutcome.authError _ _ _ => true
  | _ => false

/-- C7 counterexample: an exchange response with the non-zero status code
99991663 but a present token field does not raise; getTenantAccessToken
returns and caches the token, refuting the claim that every non-zero-code
exchange response raises an auth error. -/
theorem getTenantAccessToken_nonzero_code_counterexample :
    getTenantAccessToken [] "app" 0
        ⟨some 99991663, some "app not found", some "tok", some 7200⟩ =
      TokenOutcome.success "tok" [("app", ⟨"tok", 7200000⟩)] true ∧
    (⟨some 99991663, some "app not found", some "tok", some 7200⟩ :
        FeishuTokenResponse).code ≠ some 0 := by
  constructor
  · rfl
  · decide

/-- C7 amended: on a cache miss, getTenantAccessToken fails with a
FeishuApiError (carrying the platform code and message of the exchange
response) exactly when the token field of the exchange response is missing
or empty; a non-zero status code alone does not make the call fail. -/
theorem getTenantAccessToken_authError_iff
    (cache : List (String × CachedToken)) (appId : String) (now : Int)
    (resp : FeishuTokenResponse)
    (hmiss : lookupToken cache appId = none) :
    (isAuthErrorOutcome (getTenantAccessToken cache appId now resp) = true ↔
      (resp.tenant_access_token = none ∨ resp.tenant_access_token = some "")) ∧
    ((resp.tenant_access_token = none ∨ resp.tenant_access_token = some "") →
      getTenantAccessToken cache appId now resp =
        TokenOutcome.authError (resp.msg.getD "Failed to get tenant access token")
          resp.code resp.msg) := by
  have hx : getTenantAccessToken cache appId now resp =
      exchangeTenantToken cache appId now resp := by
    unfold getTenantAccessToken
    rw [hmiss]
  rw [hx]
  constructor
  · constructor
    · intro h
      unfold exchangeTenantToken at h
      cases htok : resp.tenant_access_token with
      | none => exact Or.inl rfl
      | some t =>
        rw [htok] at h
        by_cases ht : t = ""
        · subst ht
          exact Or.inr rfl
        · simp [ht, isAuthErrorOutcome] at h
    · intro h
      unfold exchangeTenantToken
      rcases h with h | h <;> simp [h, isAuthErrorOutcome]
  · intro h
    unfold exchangeTenantToken
    rcases h with h | h <;> simp [h]

/-- Witness for getTenantAccessToken_authError_iff: on an empty cache and an
exchange response with no token field, the call fails with the auth error
carrying the platform code and message. -/
theorem getTenantAccessToken_authError_iff_witness :
    getTenantAccessToken [] "app" 0 ⟨some 99991663, some "app not found", none, none⟩ =
      TokenOutcome.authError "app not found" (some 99991663) (some "app not found") := by
  exact (getTenantAccessToken_authError_iff [] "app" 0
    ⟨some 99991663, some "app not found", none, none⟩ (by decide)).2 (Or.inl rfl)

/-- Channel-tag stripping on an arbitrary-case target, mirroring the
case-insensitive anchored replace in normalizeTarget (send.ts line 60). -/
def stripChannelTagCI (s : String) : String :=
  if s.toLower.startsWith "feishu:" then s.drop 7
  else if s.toLower.startsWith "lark:" then s.drop 5
  else if s.toLower.startsWith "fs:" then s.drop 3
  else s

/-- normalizeTarget from send.ts lines 59-61: trim, then strip an optional
channel tag. -/
def normalizeTarget (target : String) : String :=
  stripChannelTagCI (trimString target)

/-- inferReceiveIdType from send.ts lines 66-80. -/
def inferReceiveIdType (target : String) : String :=
  let trimmed := normalizeTarget target
  if trimmed.startsWith "oc_" then "chat_id"
  else if trimmed.startsWith "ou_" then "open_id"
  else if trimmed.startsWith "on_" then "union_id"
  else if trimmed != "" && trimmed.toList.all (fun c => c.isAlpha || c.isDigit)
      && !(trimmed.contains '@') then "user_id"
  else if trimmed.contains '@' then "email"
  else "open_id"

/-- The data field of a send or reply response, as read by
sendMessageFeishu. -/
structure SendData where
  message_id : String
  deriving DecidableEq, Repr

/-- Observable behavior of the one network call sendMessageFeishu makes: a
thrown exception with its message, or a platform response with its status
code, optional data field and optional message. -/
inductive NetOutcome where
  | throws (msg : String)
  | responds (code : Int) (data : Option SendData) (msg : Option String)
  deriving DecidableEq, Repr

/-- FeishuSendResult from send.ts lines 29-33. -/
structure FeishuSendResult where
  ok : Bool
  messageId : Option String := none
  error : Option String := none
  deriving DecidableEq, Repr

/-- The request sendMessageFeishu would issue: a reply to a message or a
send to a recipient, with the resolved receive id type and the card
content. -/
structure SendRequest where
  isReply : Bool
  target : String
  receiveIdType : String
  card : MarkdownCard
  deriving DecidableEq, Repr

/-- Result of one sendMessageFeishu call together with the request it
issued; request none means no network call was made. -/
structure SendMessageRun where
  result : FeishuSendResult
  request : Option SendRequest
  deriving DecidableEq, Repr

/-- sendMessageFeishu from send.ts lines 116-172, with the resolved app
credentials passed in (resolveSendContext) and the network call outcome
supplied as an explicit argument.  The Lean function is total: the
try/catch of the source maps every thrown exception to an ok false result
carrying the exception message. -/
def sendMessageFeishu (appId appSecret toTarget text : String)
    (replyToMessageId mentionUserId : Option String)
    (receiveIdTypeOpt : Option String) (net : NetOutcome) : SendMessageRun :=
  if appId == "" || appSecret == "" then
    ⟨⟨false, none, some "No Feishu app credentials configured"⟩, none⟩
  else if trimString toTarget == "" then
    ⟨⟨false, none, some "No recipient provided"⟩, none⟩
  else
    let normalizedTo := normalizeTarget toTarget
    let receiveIdType := receiveIdTypeOpt.getD (inferReceiveIdType normalizedTo)
    let content := buildMarkdownCard text
      (if optTruthy replyToMessageId then mentionUserId else none) false
    if optTruthy replyToMessageId then
      let req : SendRequest := ⟨true, replyToMessageId.getD "", receiveIdType, content⟩
      match net with
      | NetOutcome.throws m => ⟨⟨false, none, some m⟩, some req⟩
      | NetOutcome.responds code data msg =>
        if code == 0 && data.isSome then
          ⟨⟨true, data.map SendData.message_id, none⟩, some req⟩
        else ⟨⟨false, none, some (msg.getD "Failed to reply")⟩, some req⟩
    else
      let req : SendRequest := ⟨false, normalizedTo, receiveIdType, content⟩
      match net with
      | NetOutcome.throws m => ⟨⟨false, none, some m⟩, some req⟩
      | NetOutcome.responds code data msg =>
        if code == 0 && data.isSome then
          ⟨⟨true, data.map SendData.message_id, none⟩, some req⟩
        else ⟨⟨false, none, some (msg.getD "Failed to send message")⟩, some req⟩

/-- C10: sendMessageFeishu always returns a FeishuSendResult (the model is a
total function, reflecting the try/catch in the source): missing
credentials or a blank recipient yield ok false with a fixed nonempty error
string and no network request; a thrown network exception yields ok false
with the exception message; a response with code 0 and a data field yields
ok true with the new message id. -/
theorem sendMessageFeishu_total_spec (appId appSecret toTarget text : String)
    (replyTo mention ridt : Option String) (net : NetOutcome) :
    ((appId = "" ∨ appSecret = "") →
      sendMessageFeishu appId appSecret toTarget text replyTo mention ridt net =
        ⟨⟨false, none, some "No Feishu app credentials configured"⟩, none⟩) ∧
    (appId ≠ "" → appSecret ≠ "" → trimString toTarget = "" →
      sendMessageFeishu appId appSecret toTarget text replyTo mention ridt net =
        ⟨⟨false, none, some "No recipient provided"⟩, none⟩) ∧
    (appId ≠ "" → appSecret ≠ "" → trimString toTarget ≠ "" → ∀ m,
      net = NetOutcome.throws m →
      (sendMessageFeishu appId appSecret toTarget text replyTo mention ridt net).result =
        ⟨false, none, some m⟩) ∧
    (appId ≠ "" → appSecret ≠ "" → trimString toTarget ≠ "" → ∀ d msg,
      net = NetOutcome.responds 0 (some d) msg →
      (sendMessageFeishu appId appSecret toTarget text replyTo mention ridt net).result =
        ⟨true, some d.message_id, none⟩) := by
  refine ⟨?_, ?_, ?_, ?_⟩
  · intro h
    unfold sendMessageFeishu
    rcases h with h | h <;> simp [h]
  · intro h1 h2 h3
    unfold sendMessageFeishu
    simp [h1, h2, h3]
  · intro h1 h2 h3 m hm
    subst hm
    unfold sendMessageFeishu
    simp only [h1, h2, h3]
    by_cases hr : optTruthy replyTo <;> simp [hr, h1, h2, h3]
  · intro h1 h2 h3 d msg hm
    subst hm
    unfold sendMessageFeishu
    by_cases hr : optTruthy replyTo <;> simp [hr, h1, h2, h3]

/-- Witness for sendMessageFeishu_total_spec: each branch evaluated on a
concrete input. -/
theorem sendMessageFeishu_total_spec_witness :
    sendMessageFeishu "" "s" "ou_1" "hi" none none none
        (NetOutcome.responds 0 (some ⟨"om_1"⟩) none) =
      ⟨⟨false, none, some "No Feishu app credentials configured"⟩, none⟩ ∧
    sendMessageFeishu "a" "s" "  " "hi" none none none
        (NetOutcome.responds 0 (some ⟨"om_1"⟩) none) =
      ⟨⟨false, none, some "No recipient provided"⟩, none⟩ ∧
    (sendMessageFeishu "a" "s" "ou_1" "hi" none none none
        (NetOutcome.throws "boom")).result = ⟨false, none, some "boom"⟩ ∧
    (sendMessageFeishu "a" "s" "ou_1" "hi" none none none
        (NetOutcome.responds 0 (some ⟨"om_1"⟩) none)).result =
      ⟨true, some "om_1", none⟩ := by
  refine ⟨?_, ?_, ?_, ?_⟩
  · exact (sendMessageFeishu_total_spec "" "s" "ou_1" "hi" none none none
      (NetOutcome.responds 0 (some ⟨"om_1"⟩) none)).1 (Or.inl rfl)
  · exact (sendMessageFeishu_total_spec "a" "s" "  " "hi" none none none
      (NetOutcome.responds 0 (some ⟨"om_1"⟩) none)).2.1 (by decide) (by decide) (by decide)
  · exact (sendMessageFeishu_total_spec "a" "s" "ou_1" "hi" none none none
      (NetOutcome.throws "boom")).2.2.1 (by decide) (by decide) (by decide) "boom" rfl
  · exact (sendMessageFeishu_total_spec "a" "s" "ou_1" "hi" none none none
      (NetOutcome.responds 0 (some ⟨"om_1"⟩) none)).2.2.2 (by decide) (by decide)
      (by decide) ⟨"om_1"⟩ none rfl

/-- One message transmission attempted by the batch delivery loop of
deliverFeishuReply: a reply to the original message or a standalone send,
with the target id and the arguments of its buildMarkdownCard call. -/
structure BatchTransmission where
  isReply : Bool
  target : String
  card : CardSpec
  deriving DecidableEq, Repr

/-- The chunk loop of deliverFeishuReply (send.ts lines 1050-1087),
parameterised by the chunk index it starts at.  Each iteration attempts one
transmission; a thrown send is reported by the outcome oracle (some error
message) and only appends a logged error, never stopping the loop.  Returns
the attempted transmissions and the logged errors. -/
def batchSendLoop (receiveId : String) (senderId replyTo : Option String)
    (outcomes : Nat → Option String) :
    Nat → List String → List BatchTransmission × List String
  | _, [] => ([], [])
  | i, chunk :: rest =>
    let mentionUserId := if i == 0 then senderId else none
    let card : CardSpec := ⟨chunk, mentionUserId, false⟩
    let trans : BatchTransmission :=
      if i == 0 && optTruthy replyTo then ⟨true, replyTo.getD "", card⟩
      else ⟨false, receiveId, card⟩
    let errs :=
      match outcomes i with
      | some e => ["[feishu] message send failed: " ++ e]
      | none => []
    let r := batchSendLoop receiveId senderId replyTo outcomes (i + 1) rest
    (trans :: r.1, errs ++ r.2)

/-- Batch-mode deliverFeishuReply from send.ts lines 1024-1089, starting
from the already-chunked text (the markdown-table conversion and the
chunker are external collaborators, so the chunk list is the input). -/
def deliverFeishuReply (chunks : List String) (receiveId : String)
    (senderId replyTo : Option String) (outcomes : Nat → Option String) :
    List BatchTransmission × List String :=
  batchSendLoop receiveId senderId replyTo outcomes 0 chunks

theorem batchSendLoop_tail (receiveId : String) (senderId replyTo : Option String)
    (outcomes : Nat → Option String) (chunks : List String) (i : Nat) (hi : i ≠ 0) :
    (batchSendLoop receiveId senderId replyTo outcomes i chunks).1 =
      chunks.map (fun ck => ⟨false, receiveId, ⟨ck, none, false⟩⟩) := by
  induction chunks generalizing i with
  | nil => rfl
  | cons c rest ih =>
    unfold batchSendLoop
    have h0 : (i == 0) = false := by
      cases i with
      | zero => exact absurd rfl hi
      | succ n => rfl
    simp only [h0, Bool.false_and, if_neg Bool.false_ne_true, List.map_cons]
    exact congrArg _ (ih (i + 1) (Nat.succ_ne_zero i))

theorem batchSendLoop_errors_mem (receiveId : String) (senderId replyTo : Option String)
    (outcomes : Nat → Option String) (chunks : List String) (i j : Nat) (e : String)
    (hj : j < chunks.length) (he : outcomes (i + j) = some e) :
    ("[feishu] message send failed: " ++ e) ∈
      (batchSendLoop receiveId senderId replyTo outcomes i chunks).2 := by
  induction chunks generalizing i j with
  | nil => exact absurd hj (by simp)
  | cons c rest ih =>
    unfold batchSendLoop
    cases j with
    | zero =>
      simp only [Nat.add_zero] at he
      simp [he]
    | succ k =>
      have hk : k < rest.length := Nat.lt_of_succ_lt_succ hj
      have he2 : outcomes (i + 1 + k) = some e := by
        rw [Nat.add_right_comm]
        exact he
      have := ih (i + 1) k hk he2
      simp only [List.mem_append]
      right
      exact this

/-- C8: for a batch reply that chunks into a head chunk and a tail, the
attempted transmissions are exactly one reply-to-original carrying the
sender mention for the head chunk, followed by one standalone send without
a mention per remaining chunk in order; the transmission list is the same
for every outcome oracle (a failing chunk does not abort the rest), the
head card renders with the mention markup, the tail cards render as the
bare chunk, and every chunk failure is logged individually. -/
theorem deliverFeishuReply_chunks_spec (receiveId u mid c : String)
    (rest : List String) (outcomes outcomes2 : Nat → Option String)
    (hmid : mid ≠ "") (hu : trimString u ≠ "") :
    (deliverFeishuReply (c :: rest) receiveId (some u) (some mid) outcomes).1 =
      ⟨true, mid, ⟨c, some u, false⟩⟩ ::
        rest.map (fun ck => ⟨false, receiveId, ⟨ck, none, false⟩⟩) ∧
    renderCardMarkdown ⟨c, some u, false⟩ = "<at id=" ++ u ++ "></at> " ++ c ∧
    (∀ ck, renderCardMarkdown ⟨ck, (none : Option String), false⟩ = ck) ∧
    (deliverFeishuReply (c :: rest) receiveId (some u) (some mid) outcomes).1 =
      (deliverFeishuReply (c :: rest) receiveId (some u) (some mid) outcomes2).1 ∧
    (∀ j e, j < (c :: rest).length → outcomes j = some e →
      ("[feishu] message send failed: " ++ e) ∈
        (deliverFeishuReply (c :: rest) receiveId (some u) (some mid) outcomes).2) := by
  have hhead : ∀ oc : Nat → Option String,
      (deliverFeishuReply (c :: rest) receiveId (some u) (some mid) oc).1 =
        ⟨true, mid, ⟨c, some u, false⟩⟩ ::
          rest.map (fun ck => ⟨false, receiveId, ⟨ck, none, false⟩⟩) := by
    intro oc
    unfold deliverFeishuReply batchSendLoop
    have hmid2 : (optTruthy (some mid)) = true := by
      simp [optTruthy, hmid]
    simp only [hmid2, Bool.and_true, if_pos rfl]
    exact congrArg _ (batchSendLoop_tail receiveId (some u) (some mid) oc rest 1
      (Nat.one_ne_zero))
  refine ⟨hhead outcomes, ?_, ?_, (hhead outcomes).trans (hhead outcomes2).symm, ?_⟩
  · simp [renderCardMarkdown, hu]
  · intro ck
    simp [renderCardMarkdown]
  · intro j e hj he
    exact batchSendLoop_errors_mem receiveId (some u) (some mid) outcomes (c :: rest)
      0 j e hj (by simpa using he)

/-- Witness for deliverFeishuReply_chunks_spec: two chunks where the second
send fails; the head is a mention-rendering reply, the tail a bare
standalone send, and the failure of chunk two is logged. -/
theorem deliverFeishuReply_chunks_spec_witness :
    (deliverFeishuReply ["a", "b"] "oc_1" (some "ou_9") (some "om_0")
        (fun j => if j == 1 then some "boom" else none)).1 =
      [⟨true, "om_0", ⟨"a", some "ou_9", false⟩⟩,
       ⟨false, "oc_1", ⟨"b", none, false⟩⟩] ∧
    ("[feishu] message send failed: boom") ∈
      (deliverFeishuReply ["a", "b"] "oc_1" (some "ou_9") (some "om_0")
        (fun j => if j == 1 then some "boom" else none)).2 := by
  constructor
  · exact (deliverFeishuReply_chunks_spec "oc_1" "ou_9" "om_0" "a" ["b"]
      (fun j => if j == 1 then some "boom" else none)
      (fun j => if j == 1 then some "boom" else none)
      (by decide) (by decide)).1
  · exact (deliverFeishuReply_chunks_spec "oc_1" "ou_9" "om_0" "a" ["b"]
      (fun j => if j == 1 then some "boom" else none)
      (fun j => if j == 1 then some "boom" else none)
      (by decide) (by decide)).2.2.2.2 1 "boom" (by decide) rfl

/-- Result of the pairing-store upsert as reported by the external pairing
collaborator: the one-time code and the created flag. -/
structure PairingUpsertResult where
  code : String
  created : Bool
  deriving DecidableEq, Repr

/-- Outbound side effects of the direct-message gate: the pairing-store
upsert and the pairing-code notice send. -/
inductive DmAction where
  | upsertPairing (channel : String) (id : String) (metaName : String)
  | pairingNotice (receiveId : String) (text : String)
  deriving DecidableEq, Repr

/-- Result of the direct-message policy gate: the external calls it made,
the errors it logged, and whether the message proceeds past the gate. -/
structure DmGateResult where
  actions : List DmAction
  errors : List String
  proceed : Bool
  deriving DecidableEq, Repr

/-- The direct-message policy branch of processMessageEvent (send.ts lines
829-883): disabled blocks; for non-open policies a sender missing from the
merged allow list is blocked, with the pairing policy first upserting a
pairing request and, only when the store reports created, sending one
pairing-code notice to the sender (a notice send failure is caught and
logged).  The pairing-reply builder is an external collaborator passed as a
function of the sender id and code; noticeOutcome is the observable outcome
of the notice send (some error message when it throws). -/
def dmGate (dmPolicy senderId senderName : String)
    (effectiveAllowFrom : List String) (upsert : PairingUpsertResult)
    (buildPairingReply : String → String → String)
    (noticeOutcome : Option String) : DmGateResult :=
  if dmPolicy == "disabled" then ⟨[], [], false⟩
  else if dmPolicy != "open" then
    if !(isSenderAllowed senderId effectiveAllowFrom) then
      if dmPolicy == "pairing" then
        let base := [DmAction.upsertPairing "feishu" senderId senderName]
        if upsert.created then
          let text := buildPairingReply senderId upsert.code
          match noticeOutcome with
          | none => ⟨base ++ [DmAction.pairingNotice senderId text], [], false⟩
          | some e =>
            ⟨base ++ [DmAction.pairingNotice senderId text],
              ["feishu pairing reply failed for " ++ senderId ++ ": " ++ e], false⟩
        else ⟨base, [], false⟩
      else ⟨[], [], false⟩
    else ⟨[], [], true⟩
  else ⟨[], [], true⟩

/-- True exactly for the pairing-store upsert action. -/
def isUpsertAction : DmAction → Bool
  | DmAction.upsertPairing _ _ _ => true
  | _ => false

/-- True exactly for the pairing-code notice action. -/
def isNoticeAction : DmAction → Bool
  | DmAction.pairingNotice _ _ => true
  | _ => false

/-- C2: under pairing policy, a direct message from a sender not in the
merged allow set performs exactly one pairing-store upsert; when the upsert
reports created, exactly one pairing-code notice is sent to the sender and
the message is blocked; when it reports not created, zero notices are sent
and the message is blocked silently.  This holds for every outcome of the
notice send. -/
theorem dmGate_pairing_spec (senderId senderName : String) (allow : List String)
    (upsert : PairingUpsertResult) (buildPairingReply : String → String → String)
    (noticeOutcome : Option String)
    (hna : isSenderAllowed senderId allow = false) :
    ((dmGate "pairing" senderId senderName allow upsert buildPairingReply
        noticeOutcome).actions.countP isUpsertAction = 1) ∧
    (upsert.created = true →
      (dmGate "pairing" senderId senderName allow upsert buildPairingReply
        noticeOutcome).actions.countP isNoticeAction = 1) ∧
    (upsert.created = false →
      (dmGate "pairing" senderId senderName allow upsert buildPairingReply
        noticeOutcome).actions.countP isNoticeAction = 0) ∧
    (dmGate "pairing" senderId senderName allow upsert buildPairingReply
        noticeOutcome).proceed = false := by
  unfold dmGate
  cases hcr : upsert.created with
  | true =>
    cases noticeOutcome with
    | none =>
      simp [hna, hcr, List.countP, List.countP.go, isUpsertAction, isNoticeAction]
    | some e =>
      simp [hna, hcr, List.countP, List.countP.go, isUpsertAction, isNoticeAction]
  | false =>
    simp [hna, hcr, List.countP, List.countP.go, isUpsertAction, isNoticeAction]

/-- Witness for dmGate_pairing_spec: an unknown sender with an empty merged
allow list, once with a newly created pairing request and once with an
already pending one. -/
theorem dmGate_pairing_spec_witness :
    ((dmGate "pairing" "ou_x" "User" [] ⟨"123456", true⟩ (fun _ c => c)
        none).actions.countP isNoticeAction = 1) ∧
    ((dmGate "pairing" "ou_x" "User" [] ⟨"123456", false⟩ (fun _ c => c)
        none).actions.countP isNoticeAction = 0) ∧
    ((dmGate "pairing" "ou_x" "User" [] ⟨"123456", true⟩ (fun _ c => c)
        none).actions.countP isUpsertAction = 1) := by
  refine ⟨?_, ?_, ?_⟩
  · exact (dmGate_pairing_spec "ou_x" "User" [] ⟨"123456", true⟩ (fun _ c => c)
      none (by decide)).2.1 rfl
  · exact (dmGate_pairing_spec "ou_x" "User" [] ⟨"123456", false⟩ (fun _ c => c)
      none (by decide)).2.2.1 rfl
  · exact (dmGate_pairing_spec "ou_x" "User" [] ⟨"123456", true⟩ (fun _ c => c)
      none (by decide)).1

/-- One entry of the mentions list of an inbound message event. -/
structure FeishuMention where
  key : String
  name : String
  idOpenId : Option String
  deriving DecidableEq, Repr

/-- Bot identity used for mention detection. -/
structure FeishuBotInfo where
  open_id : Option String
  deriving DecidableEq, Repr

/-- The fallback heuristic of isBotMentioned (send.ts lines 603-620) for
one mention: key and name truthy, and the text parsed from the message
content starts with an at plus the mention name or with the mention key;
contentText is the text field of the parsed message content, none when the
content fails to parse. -/
def mentionFallbackHit (contentText : Option String) (m : FeishuMention) : Bool :=
  m.key != "" && m.name != "" &&
    (match contentText with
     | some text => text.startsWith ("@" ++ m.name) || text.startsWith m.key
     | none => false)

/-- isBotMentioned from send.ts lines 583-623: an at-all mention, or a
structured mention of the bot open id, or the fallback heuristic. -/
def isBotMentioned (mentions : List FeishuMention) (contentText : Option String)
    (botInfo : Option FeishuBotInfo) : Bool :=
  if mentions.any (fun m => m.name == "@_all") then true
  else if (match botInfo with
    | some b =>
      match b.open_id with
      | some oid => oid != "" && mentions.any (fun m => m.idOpenId == some oid)
      | none => false
    | none => false) then true
  else mentions.any (mentionFallbackHit contentText)

/-- Per-group override configuration read by processMessageEvent. -/
structure GroupConfig where
  enabled : Option Bool
  requireMention : Option Bool
  deriving DecidableEq, Repr

/-- The group-policy admission check of processMessageEvent (send.ts lines
886-898): only the allowlist policy can block, and it admits when the group
id is wildcard-allowed or listed, or the per-group override has not set
enabled to false. -/
def groupPolicyAdmits (groupPolicy : String) (groupAllowFrom : List String)
    (chatId : String) (groupConfig : Option GroupConfig) : Bool :=
  if groupPolicy == "allowlist" then
    let groupAllowed := groupAllowFrom.contains "*" || groupAllowFrom.contains chatId
    let groupEnabled := !((groupConfig.bind GroupConfig.enabled) == some false)
    groupAllowed || groupEnabled
  else true

/-- The full group gate of processMessageEvent (send.ts lines 886-909):
policy admission followed by the mention gate, which applies unless the
per-group requireMention override is explicitly false.  The result records
whether the message proceeds to route resolution. -/
def groupGate (groupPolicy : String) (groupAllowFrom : List String)
    (chatId : String) (groupConfig : Option GroupConfig)
    (mentions : List FeishuMention) (contentText : Option String)
    (botInfo : Option FeishuBotInfo) : Bool :=
  if !(groupPolicyAdmits groupPolicy groupAllowFrom chatId groupConfig) then false
  else if !((groupConfig.bind GroupConfig.requireMention) == some false) then
    isBotMentioned mentions contentText botInfo
  else true

/-- C5: under the allowlist group policy the admission check holds exactly
when the group id is wildcard-allowed, explicitly listed, or the per-group
override has not set enabled to false (so a group absent from the allow
list is still admitted unless its override disables it); and a group
failing the admission check is blocked before route resolution, regardless
of mentions. -/
theorem groupPolicy_allowlist_spec (groupAllowFrom : List String)
    (chatId : String) (groupConfig : Option GroupConfig)
    (mentions : List FeishuMention) (contentText : Option String)
    (botInfo : Option FeishuBotInfo) :
    (groupPolicyAdmits "allowlist" groupAllowFrom chatId groupConfig =
      (groupAllowFrom.contains "*" || groupAllowFrom.contains chatId ||
        !((groupConfig.bind GroupConfig.enabled) == some false))) ∧
    (groupPolicyAdmits "allowlist" groupAllowFrom chatId groupConfig = false →
      groupGate "allowlist" groupAllowFrom chatId groupConfig mentions
        contentText botInfo = false) := by
  constructor
  · unfold groupPolicyAdmits
    simp [Bool.or_assoc]
  · intro h
    unfold groupGate
    simp [h]

/-- Witness for groupPolicy_allowlist_spec: a group neither listed nor
wildcard-allowed whose override sets enabled false fails admission and is
blocked before route resolution. -/
theorem groupPolicy_allowlist_spec_witness :
    groupPolicyAdmits "allowlist" ["oc_listed"] "oc_other"
        (some ⟨some false, none⟩) =
      (["oc_listed"].contains "*" || ["oc_listed"].contains "oc_other" ||
        !(((some (⟨some false, none⟩ : GroupConfig)).bind GroupConfig.enabled) ==
          some false)) ∧
    groupGate "allowlist" ["oc_listed"] "oc_other" (some ⟨some false, none⟩)
      [] none none = false := by
  constructor
  · exact (groupPolicy_allowlist_spec ["oc_listed"] "oc_other"
      (some ⟨some false, none⟩) [] none none).1
  · exact (groupPolicy_allowlist_spec ["oc_listed"] "oc_other"
      (some ⟨some false, none⟩) [] none none).2 (by decide)

/-- C4: for a group whose requireMention override is not explicitly false,
a message with an empty mentions list is dropped by the gate (so it never
reaches route resolution, session recording or reply dispatch); and a
message whose mentions list contains an entry carrying the bot open id
passes the gate whenever the group policy admits the group. -/
theorem groupGate_mention_spec (groupPolicy : String)
    (groupAllowFrom : List String) (chatId : String)
    (groupConfig : Option GroupConfig) (mentions : List FeishuMention)
    (contentText : Option String) (botInfo : Option FeishuBotInfo)
    (hrm : (groupConfig.bind GroupConfig.requireMention) ≠ some false) :
    (groupGate groupPolicy groupAllowFrom chatId groupConfig [] contentText
        botInfo = false) ∧
    (∀ b, botInfo = some ⟨some b⟩ → b ≠ "" →
      (∃ m ∈ mentions, m.idOpenId = some b) →
      groupPolicyAdmits groupPolicy groupAllowFrom chatId groupConfig = true →
      groupGate groupPolicy groupAllowFrom chatId groupConfig mentions
        contentText botInfo = true) := by
  have hrm2 : ((groupConfig.bind GroupConfig.requireMention) == some false) = false := by
    simp [hrm]
  constructor
  · unfold groupGate
    by_cases ha : groupPolicyAdmits groupPolicy groupAllowFrom chatId groupConfig
    · simp [ha, hrm2, isBotMentioned, mentionFallbackHit]
      rcases botInfo with _ | ⟨_ | oid⟩ <;> rfl
    · simp [Bool.not_eq_true] at ha
      simp [ha]
  · intro b hb hbne hmem ha
    unfold groupGate
    have hment : isBotMentioned mentions contentText botInfo = true := by
      unfold isBotMentioned
      subst hb
      by_cases hall : mentions.any (fun m => m.name == "@_all")
      · simp [hall]
      · have : mentions.any (fun m => m.idOpenId == some b) = true := by
          rw [List.any_eq_true]
          obtain ⟨m, hm, hid⟩ := hmem
          exact ⟨m, hm, by simp [hid]⟩
        simp [hall, this, hbne]
    simp [ha, hrm2, hment]

/-- Witness for groupGate_mention_spec: a group with no override config
(requireMention defaults on): the empty mentions list is dropped, and a
structured mention of the bot open id passes under an admitting policy. -/
theorem groupGate_mention_spec_witness :
    groupGate "allowlist" ["oc_g"] "oc_g" none [] none
      (some ⟨some "ou_bot"⟩) = false ∧
    groupGate "allowlist" ["oc_g"] "oc_g" none
      [⟨"k1", "Bot", some "ou_bot"⟩] none (some ⟨some "ou_bot"⟩) = true := by
  constructor
  · exact (groupGate_mention_spec "allowlist" ["oc_g"] "oc_g" none
      [⟨"k1", "Bot", some "ou_bot"⟩] none (some ⟨some "ou_bot"⟩) (by decide)).1
  · exact (groupGate_mention_spec "allowlist" ["oc_g"] "oc_g" none
      [⟨"k1", "Bot", some "ou_bot"⟩] none (some ⟨some "ou_bot"⟩) (by decide)).2
      "ou_bot" rfl (by decide) ⟨⟨"k1", "Bot", some "ou_bot"⟩, by decide, rfl⟩
      (by decide)

/-- Minimum interval between streaming updates in milliseconds (constant
STREAMING_UPDATE_INTERVAL_MS in send.ts). -/
def STREAMING_UPDATE_INTERVAL_MS : Int := 300

/-- Observable outcome of one send, reply or edit call inside the streaming
delivery: success with the optional message id of the response data, or a
thrown error with its message. -/
inductive OpResult where
  | ok (messageId : Option String)
  | fail (err : String)
  deriving DecidableEq, Repr

/-- True exactly for a thrown call outcome. -/
def OpResult.isFailure : OpResult → Bool
  | OpResult.fail _ => true
  | _ => false

/-- One network operation attempted by the streaming delivery: the initial
send or reply, an intermediate in-place edit, the final cursor-removing
edit, or the final send when no message was ever created.  Each records the
arguments of its buildMarkdownCard call. -/
inductive StreamOp where
  | createMsg (isReply : Bool) (card : CardSpec)
  | editMsg (mid : String) (card : CardSpec)
  | finalEditMsg (mid : String) (card : CardSpec)
  | finalCreateMsg (isReply : Bool) (card : CardSpec)
  deriving DecidableEq, Repr

/-- The card argument of a streaming operation. -/
def StreamOp.card : StreamOp → CardSpec
  | StreamOp.createMsg _ c => c
  | StreamOp.editMsg _ c => c
  | StreamOp.finalEditMsg _ c => c
  | StreamOp.finalCreateMsg _ c => c

/-- StreamingContext from send.ts lines 1094-1100. -/
structure StreamingContext where
  messageId : Option String
  lastUpdateTime : Int
  accumulatedText : String
  mentionUserId : Option String
  isFirstChunk : Bool
  deriving DecidableEq, Repr

/-- Loop state of the streaming delivery: the streaming context, the index
of the next network operation (consumed from the oracle), the operations
attempted so far with their outcomes, and the errors logged so far. -/
structure StreamLoopState where
  ctx : StreamingContext
  opIdx : Nat
  ops : List (StreamOp × OpResult)
  errors : List String
  deriving DecidableEq, Repr

/-- One iteration of the for-await loop of deliverFeishuReplyStreaming
(send.ts lines 1134-1185) on an increment (arrival time, text chunk):
append the chunk; skip when less than the minimum interval has elapsed;
otherwise attempt the first send or reply (recording the returned message
id and clearing the first-chunk flag only on success) or an in-place edit
when a message id is known; a thrown call is logged and the loop
continues.  conv is the external markdown-table converter; the oracle maps
the operation index to the observable outcome of that network call. -/
def streamStep (conv : String → String) (oracle : Nat → OpResult)
    (replyTo : Option String) (s : StreamLoopState) (inc : Int × String) :
    StreamLoopState :=
  let now := inc.1
  let ctx0 := { s.ctx with accumulatedText := s.ctx.accumulatedText ++ inc.2 }
  if now - ctx0.lastUpdateTime < STREAMING_UPDATE_INTERVAL_MS then
    { s with ctx := ctx0 }
  else
    let displayText := conv ctx0.accumulatedText
    if ctx0.isFirstChunk then
      let card : CardSpec := ⟨displayText, ctx0.mentionUserId, true⟩
      let op := StreamOp.createMsg (optTruthy replyTo) card
      match oracle s.opIdx with
      | OpResult.ok mid =>
        let ctx1 := { ctx0 with messageId := mid, isFirstChunk := false, lastUpdateTime := now }
        { ctx := ctx1, opIdx := s.opIdx + 1,
          ops := s.ops ++ [(op, OpResult.ok mid)], errors := s.errors }
      | OpResult.fail e =>
        { ctx := ctx0, opIdx := s.opIdx + 1,
          ops := s.ops ++ [(op, OpResult.fail e)],
          errors := s.errors ++ ["[feishu] streaming update failed: " ++ e] }
    else if optTruthy ctx0.messageId then
      let card : CardSpec := ⟨displayText, ctx0.mentionUserId, true⟩
      let op := StreamOp.editMsg (ctx0.messageId.getD "") card
      match oracle s.opIdx with
      | OpResult.ok r =>
        { ctx := { ctx0 with lastUpdateTime := now }, opIdx := s.opIdx + 1,
          ops := s.ops ++ [(op, OpResult.ok r)], errors := s.errors }
      | OpResult.fail e =>
        { ctx := ctx0, opIdx := s.opIdx + 1,
          ops := s.ops ++ [(op, OpResult.fail e)],
          errors := s.errors ++ ["[feishu] streaming update failed: " ++ e] }
    else { s with ctx := ctx0 }

/-- Full run of the streaming delivery: the operations attempted with
their outcomes, the errors logged, the error rethrown to the caller (none
when the function returned normally), and the final accumulated text. -/
structure StreamRun where
  ops : List (StreamOp × OpResult)
  errors : List String
  thrown : Option String
  finalText : String
  deriving DecidableEq, Repr

/-- deliverFeishuReplyStreaming from send.ts lines 1106-1226.  The text
stream is the list of increments plus an optional error the stream iterator
throws after them (caught by the outer catch, logged, and rethrown); after
a normally ending stream, the final flush edits the message without the
cursor glyph when a message id is known and the accumulated text is
nonempty, or sends the content now when no message was ever created; a
thrown final edit or send is caught and logged inside its own try block and
the function still returns normally. -/
def deliverFeishuReplyStreaming (conv : String → String)
    (oracle : Nat → OpResult) (senderId replyTo : Option String)
    (increments : List (Int × String)) (streamErr : Option String) :
    StreamRun :=
  let init : StreamLoopState := ⟨⟨none, 0, "", senderId, true⟩, 0, [], []⟩
  let s := increments.foldl (streamStep conv oracle replyTo) init
  match streamErr with
  | some e =>
    ⟨s.ops, s.errors ++ ["[feishu] streaming delivery failed: " ++ e], some e,
      s.ctx.accumulatedText⟩
  | none =>
    if optTruthy s.ctx.messageId && s.ctx.accumulatedText != "" then
      let card : CardSpec := ⟨conv s.ctx.accumulatedText, s.ctx.mentionUserId, false⟩
      let op := StreamOp.finalEditMsg (s.ctx.messageId.getD "") card
      match oracle s.opIdx with
      | OpResult.ok r =>
        ⟨s.ops ++ [(op, OpResult.ok r)], s.errors, none, s.ctx.accumulatedText⟩
      | OpResult.fail e =>
        ⟨s.ops ++ [(op, OpResult.fail e)],
          s.errors ++ ["[feishu] final streaming update failed: " ++ e], none,
          s.ctx.accumulatedText⟩
    else if !(optTruthy s.ctx.messageId) && s.ctx.accumulatedText != "" then
      let card : CardSpec := ⟨conv s.ctx.accumulatedText, s.ctx.mentionUserId, false⟩
      let op := StreamOp.finalCreateMsg (optTruthy replyTo) card
      match oracle s.opIdx with
      | OpResult.ok r =>
        ⟨s.ops ++ [(op, OpResult.ok r)], s.errors, none, s.ctx.accumulatedText⟩
      | OpResult.fail e =>
        ⟨s.ops ++ [(op, OpResult.fail e)],
          s.errors ++ ["[feishu] final message send failed: " ++ e], none,
          s.ctx.accumulatedText⟩
    else ⟨s.ops, s.errors, none, s.ctx.accumulatedText⟩

/-- Number of failed operations in an attempted-operation list. -/
def countFailures (ops : List (StreamOp × OpResult)) : Nat :=
  (ops.filter (fun p => p.2.isFailure)).length

/-- C1 counterexample: a streaming run whose only increment is flushed
successfully and whose final cursor-removing edit throws; the failure is
logged but the function returns normally (thrown is none), refuting the
claim that a failure on the final flush propagates to the caller of the
streaming delivery function. -/
theorem streaming_finalFlush_counterexample :
    deliverFeishuReplyStreaming (fun t => t)
        (fun n => if n == 0 then OpResult.ok (some "om_1")
          else OpResult.fail "edit failed")
        (some "ou_u") (some "om_orig") [(1000, "hello")] none =
      ⟨[(StreamOp.createMsg true ⟨"hello", some "ou_u", true⟩,
          OpResult.ok (some "om_1")),
        (StreamOp.finalEditMsg "om_1" ⟨"hello", some "ou_u", false⟩,
          OpResult.fail "edit failed")],
        ["[feishu] final streaming update failed: edit failed"], none,
        "hello"⟩ := by
  rfl

theorem countFailures_append (ops : List (StreamOp × OpResult))
    (x : StreamOp × OpResult) :
    countFailures (ops ++ [x]) =
      countFailures ops + (if x.2.isFailure then 1 else 0) := by
  by_cases hx : x.2.isFailure <;> simp [countFailures, List.filter_append, hx]

theorem streamStep_errors_inv (conv : String → String) (oracle : Nat → OpResult)
    (replyTo : Option String) (s : StreamLoopState) (inc : Int × String)
    (h : s.errors.length = countFailures s.ops) :
    (streamStep conv oracle replyTo s inc).errors.length =
      countFailures (streamStep conv oracle replyTo s inc).ops := by
  unfold streamStep
  dsimp only
  split
  · exact h
  · split
    · split <;> simp [countFailures_append, OpResult.isFailure, h]
    · split
      · split <;> simp [countFailures_append, OpResult.isFailure, h]
      · exact h

theorem streamStep_accum (conv : String → String) (oracle : Nat → OpResult)
    (replyTo : Option String) (s : StreamLoopState) (inc : Int × String) :
    (streamStep conv oracle replyTo s inc).ctx.accumulatedText =
      s.ctx.accumulatedText ++ inc.2 := by
  unfold streamStep
  dsimp only
  split
  · rfl
  · split
    · split <;> rfl
    · split
      · split <;> rfl
      · rfl

theorem streamStep_mention (conv : String → String) (oracle : Nat → OpResult)
    (replyTo : Option String) (s : StreamLoopState) (inc : Int × String) :
    (streamStep conv oracle replyTo s inc).ctx.mentionUserId =
      s.ctx.mentionUserId := by
  unfold streamStep
  dsimp only
  split
  · rfl
  · split
    · split <;> rfl
    · split
      · split <;> rfl
      · rfl

theorem streamStep_ops_mention (conv : String → String) (oracle : Nat → OpResult)
    (replyTo : Option String) (u : Option String) (s : StreamLoopState)
    (inc : Int × String) (hm : s.ctx.mentionUserId = u)
    (h : ∀ p ∈ s.ops, (StreamOp.card p.1).mention = u) :
    ∀ p ∈ (streamStep conv oracle replyTo s inc).ops,
      (StreamOp.card p.1).mention = u := by
  unfold streamStep
  dsimp only
  split
  · exact h
  · split
    · split <;>
      · intro p hp
        rcases List.mem_append.mp hp with hp | hp
        · exact h p hp
        · rcases List.mem_singleton.mp hp with rfl
          simpa [StreamOp.card] using hm
    · split
      · split <;>
        · intro p hp
          rcases List.mem_append.mp hp with hp | hp
          · exact h p hp
          · rcases List.mem_singleton.mp hp with rfl
            simpa [StreamOp.card] using hm
      · exact h

theorem foldl_streamStep_inv (conv : String → String) (oracle : Nat → OpResult)
    (replyTo : Option String) (P : StreamLoopState → Prop)
    (hstep : ∀ s inc, P s → P (streamStep conv oracle replyTo s inc)) :
    ∀ (incs : List (Int × String)) (s : StreamLoopState), P s →
      P (incs.foldl (streamStep conv oracle replyTo) s) := by
  intro incs
  induction incs with
  | nil => intro s h; exact h
  | cons a l ih => intro s h; exact ih _ (hstep s a h)

theorem foldl_streamStep_accum (conv : String → String) (oracle : Nat → OpResult)
    (replyTo : Option String) :
    ∀ (incs : List (Int × String)) (s : StreamLoopState),
      (incs.foldl (streamStep conv oracle replyTo) s).ctx.accumulatedText =
        incs.foldl (fun acc p => acc ++ p.2) s.ctx.accumulatedText := by
  intro incs
  induction incs with
  | nil => intro s; rfl
  | cons a l ih =>
    intro s
    rw [List.foldl_cons, List.foldl_cons, ih, streamStep_accum]

/-- C1 amended: any edit or send failure inside the streaming delivery,
whether on an intermediate flush or on the final cursor-removing flush, is
caught and logged (one logged error per failed operation) and the function
returns normally; streaming always consumes the whole increment stream (the
final accumulated text is the concatenation of all increments, whatever the
operation outcomes); the only error that propagates to the caller is one
thrown by the text stream iterator itself, which is logged and rethrown. -/
theorem streaming_errors_logged_spec (conv : String → String)
    (oracle : Nat → OpResult) (senderId replyTo : Option String)
    (increments : List (Int × String)) :
    (deliverFeishuReplyStreaming conv oracle senderId replyTo increments
      none).thrown = none ∧
    (deliverFeishuReplyStreaming conv oracle senderId replyTo increments
        none).errors.length =
      countFailures (deliverFeishuReplyStreaming conv oracle senderId replyTo
        increments none).ops ∧
    (deliverFeishuReplyStreaming conv oracle senderId replyTo increments
        none).finalText = increments.foldl (fun acc p => acc ++ p.2) "" ∧
    (∀ e, (deliverFeishuReplyStreaming conv oracle senderId replyTo increments
      (some e)).thrown = some e) := by
  have hserr := foldl_streamStep_inv conv oracle replyTo
    (fun st => st.errors.length = countFailures st.ops)
    (streamStep_errors_inv conv oracle replyTo) increments
    ⟨⟨none, 0, "", senderId, true⟩, 0, [], []⟩ rfl
  have hacc := foldl_streamStep_accum conv oracle replyTo increments
    ⟨⟨none, 0, "", senderId, true⟩, 0, [], []⟩
  refine ⟨?_, ?_, ?_, ?_⟩
  · unfold deliverFeishuReplyStreaming
    dsimp only
    split
    · split <;> rfl
    · split
      · split <;> rfl
      · rfl
  · unfold deliverFeishuReplyStreaming
    dsimp only
    split
    · split <;> simp [countFailures_append, OpResult.isFailure, hserr]
    · split
      · split <;> simp [countFailures_append, OpResult.isFailure, hserr]
      · exact hserr
  · unfold deliverFeishuReplyStreaming
    dsimp only
    split
    · split <;> exact hacc
    · split
      · split <;> exact hacc
      · exact hacc
  · intro e
    rfl

/-- The at-mention markup leads the rendered markdown whenever the card
mention field holds an id with nonempty trim. -/
theorem renderCardMarkdown_mention (c : CardSpec) (u : String)
    (hc : c.mention = some u) (hu : trimString u ≠ "") :
    ∃ rest, renderCardMarkdown c = "<at id=" ++ u ++ "></at> " ++ rest := by
  obtain ⟨t, m, st⟩ := c
  simp only at hc
  subst hc
  cases st
  · exact ⟨t, by simp [renderCardMarkdown, hu]⟩
  · exact ⟨t ++ STREAMING_INDICATOR,
      by simp [renderCardMarkdown, hu, String.append_assoc]⟩

/-- C9 counterexample: a streaming run with two flushes and a final edit;
the intermediate edit and the final edit both carry the mention id in
their card, and both rendered contents begin with the mention markup,
refuting the claim that the mention markup appears only in the first
flushed card content. -/
theorem streaming_mention_counterexample :
    (deliverFeishuReplyStreaming (fun t => t)
        (fun n => if n == 0 then OpResult.ok (some "m1") else OpResult.ok none)
        (some "u1") (some "om_0") [(1000, "a"), (2000, "b")] none).ops =
      [(StreamOp.createMsg true ⟨"a", some "u1", true⟩, OpResult.ok (some "m1")),
        (StreamOp.editMsg "m1" ⟨"ab", some "u1", true⟩, OpResult.ok none),
        (StreamOp.finalEditMsg "m1" ⟨"ab", some "u1", false⟩, OpResult.ok none)] ∧
    renderCardMarkdown ⟨"ab", some "u1", true⟩ =
      "<at id=u1></at> ab" ++ STREAMING_INDICATOR ∧
    renderCardMarkdown ⟨"ab", some "u1", false⟩ = "<at id=u1></at> ab" := by
  refine ⟨rfl, rfl, rfl⟩

/-- C9 amended: when the streaming context carries a mention id with
nonempty trim, every operation of the streaming delivery, including the
initial send, every intermediate edit, the final cursor-removing edit and
the final send, builds its card with that mention id, and its rendered
markdown begins with the mention markup (each edit replaces the whole card
content, so the mention must be re-rendered every time). -/
theorem streaming_mention_all_flushes (conv : String → String)
    (oracle : Nat → OpResult) (replyTo : Option String)
    (increments : List (Int × String)) (streamErr : Option String)
    (u : String) (hu : trimString u ≠ "") :
    ∀ p ∈ (deliverFeishuReplyStreaming conv oracle (some u) replyTo increments
        streamErr).ops,
      (StreamOp.card p.1).mention = some u ∧
      ∃ rest, renderCardMarkdown (StreamOp.card p.1) =
        "<at id=" ++ u ++ "></at> " ++ rest := by
  have hinv := foldl_streamStep_inv conv oracle replyTo
    (fun st => st.ctx.mentionUserId = some u ∧
      ∀ p ∈ st.ops, (StreamOp.card p.1).mention = some u)
    (fun s inc hP => ⟨(streamStep_mention conv oracle replyTo s inc).trans hP.1,
      streamStep_ops_mention conv oracle replyTo (some u) s inc hP.1 hP.2⟩)
    increments ⟨⟨none, 0, "", some u, true⟩, 0, [], []⟩
    ⟨rfl, fun p hp => absurd hp (List.not_mem_nil p)⟩
  have hmention : ∀ p ∈ (deliverFeishuReplyStreaming conv oracle (some u) replyTo
      increments streamErr).ops, (StreamOp.card p.1).mention = some u := by
    cases streamErr with
    | some e =>
      unfold deliverFeishuReplyStreaming
      dsimp only
      exact hinv.2
    | none =>
      unfold deliverFeishuReplyStreaming
      dsimp only
      split
      · split <;>
        · intro p hp
          rcases List.mem_append.mp hp with hp | hp
          · exact hinv.2 p hp
          · rcases List.mem_singleton.mp hp with rfl
            simpa [StreamOp.card] using hinv.1
      · split
        · split <;>
          · intro p hp
            rcases List.mem_append.mp hp with hp | hp
            · exact hinv.2 p hp
            · rcases List.mem_singleton.mp hp with rfl
              simpa [StreamOp.card] using hinv.1
        · exact hinv.2
  intro p hp
  exact ⟨hmention p hp,
    renderCardMarkdown_mention (StreamOp.card p.1) u (hmention p hp) hu⟩

/-- Witness for streaming_mention_all_flushes: the single flush of a
one-increment run carries the mention id and renders with the mention
markup leading. -/
theorem streaming_mention_all_flushes_witness :
    (StreamOp.card (StreamOp.createMsg false ⟨"hi", some "u1", true⟩)).mention =
      some "u1" ∧
    ∃ rest, renderCardMarkdown
        (StreamOp.card (StreamOp.createMsg false ⟨"hi", some "u1", true⟩)) =
      "<at id=" ++ "u1" ++ "></at> " ++ rest :=
  streaming_mention_all_flushes (fun t => t) (fun _ => OpResult.ok (some "m"))
    none [(1000, "hi")] none "u1" (by decide)
    (StreamOp.createMsg false ⟨"hi", some "u1", true⟩, OpResult.ok (some "m"))
    (by decide)

end Feishu
